import Mathlib

/-!
Shallow embedding of the Park-It rules engine
(`src/backend/services/rules_engine.py`).

Modelling conventions:
* Python floats (decimal hours, coordinates, rates) are modelled by exact
  rationals `ℚ`.  All decimal-hour values that occur are multiples of `1/60`,
  so the arithmetic of the engine is exact in this model; IEEE-754 double
  rounding artefacts of the real program are treated separately where a claim
  depends on them.
* Python exceptions (`ValueError` from `int(...)`, `ValueError` from
  `datetime.replace` with an out-of-range hour) are modelled by
  `Except Unit`; `.error ()` marks a raised exception.
* Python dicts with a fixed key set are modelled by structures; a key whose
  value may be `None`, or that may be absent and is read with `.get(k, d)`,
  becomes an `Option` field (`none` = absent, read through `Option.getD`).
  The rule dicts built by the engine always carry every key that the
  evaluator reads, so the structure model is exact for all reachable rule
  records.
* `datetime` values are modelled by `PyDateTime`: the proleptic Gregorian
  ordinal of the calendar date plus hour/minute/second fields.  Python's
  `date.weekday()` is `(ordinal - 1) % 7` (0001-01-01 is a Monday).  The
  holiday file's "YYYY-MM-DD" strings are modelled through the same ordinal
  encoding (the encoding is a bijection on calendar dates).
* Python's `int(str)` is modelled by `String.toInt?`; the model covers the
  plain decimal forms appearing in catalogue time strings (Python also
  accepts surrounding whitespace and underscores, which no claim exercises).
* `load_json_data` performs file I/O and is not embedded; the engine is
  parameterised by the loaded `Catalogue` instead (the module-level globals
  `CLEANING_SCHEDULE`, `METER_ZONES`, `HOLIDAYS`).  `datetime.now()` is
  likewise a parameter `now`.
* `rules_json` (a `json.dumps` of the `rules` list) is not modelled; the
  `rules` field itself carries the same information.
-/

/-!
The library's rational field operations are sealed against definitional
unfolding, so the embedding computes with the `q`-prefixed operations below,
each built from `mkRat` and integer arithmetic and proved equal to the
corresponding field operation (`qadd_eq` and friends).  This keeps every
definition executable by the kernel while every theorem can be read through
the ordinary `+ - * / ⌊⌋` on `ℚ`.
-/

/-- Kernel-computable addition on `ℚ`. -/
def qadd (a b : ℚ) : ℚ := mkRat (a.num * b.den + b.num * a.den) (a.den * b.den)

/-- Kernel-computable subtraction on `ℚ`. -/
def qsub (a b : ℚ) : ℚ := mkRat (a.num * b.den - b.num * a.den) (a.den * b.den)

/-- Kernel-computable multiplication on `ℚ`. -/
def qmul (a b : ℚ) : ℚ := mkRat (a.num * b.num) (a.den * b.den)

/-- Kernel-computable division on `ℚ` (division by zero yields zero, a case
the engine never exercises: its divisors are the constants 60 and 10000). -/
def qdiv (a b : ℚ) : ℚ :=
  let n := a.num * (b.den : Int)
  let d := (a.den : Int) * b.num
  if 0 ≤ d then mkRat n d.toNat else mkRat (-n) (-d).toNat

/-- Kernel-computable negation on `ℚ`. -/
def qneg (a : ℚ) : ℚ := mkRat (-a.num) a.den

/-- Kernel-computable absolute value on `ℚ`. -/
def qabs (a : ℚ) : ℚ := if 0 ≤ a.num then a else qneg a

/-- Python `int(x)` on a numeric value: truncation toward zero. -/
def pyTrunc (q : ℚ) : Int := if 0 ≤ q then q.floor else -(qneg q).floor

/-- Python `x % 1` on a float: the representative in `[0, 1)`. -/
def pyMod1 (q : ℚ) : ℚ := qsub q (q.floor : ℚ)

/-- Split a character list at every occurrence of `c`, keeping empty pieces
(the semantics of Python `str.split(c)` on a one-character separator). -/
def splitChar (c : Char) : List Char → List (List Char)
  | [] => [[]]
  | x :: xs =>
    if x = c then [] :: splitChar c xs
    else
      match splitChar c xs with
      | h :: t => (x :: h) :: t
      | [] => [[x]]

/-- Decimal digit value of a character. -/
def digitVal (c : Char) : Option Nat :=
  if '0' ≤ c ∧ c ≤ '9' then some (c.toNat - '0'.toNat) else none

/-- Accumulate decimal digits; fails on the first non-digit. -/
def digitsToNatAux (acc : Nat) : List Char → Option Nat
  | [] => some acc
  | c :: cs =>
    match digitVal c with
    | some d => digitsToNatAux (acc * 10 + d) cs
    | none => none

/-- Parse a nonempty run of decimal digits. -/
def digitsToNat (l : List Char) : Option Nat :=
  if l.isEmpty then none else digitsToNatAux 0 l

/-- Python `int(s)` on a character list: optional sign then digits; `none`
models the `ValueError` a non-numeric string raises.  (Python additionally
strips surrounding whitespace and permits digit-group underscores, forms no
catalogue entry or claim exercises.) -/
def pyToIntChars (l : List Char) : Option Int :=
  match l with
  | '-' :: rest => (digitsToNat rest).map (fun n => -(n : Int))
  | '+' :: rest => (digitsToNat rest).map (fun n => (n : Int))
  | _ => (digitsToNat l).map (fun n => (n : Int))

/-- Python `int(s)` on a string (plain decimal forms). -/
def pyToInt (s : String) : Option Int := pyToIntChars s.data

/-- Round to the nearest integer, ties to even (the rounding used when
formatting a value with a fixed number of decimals). -/
def roundHalfEven (q : ℚ) : Int :=
  let f := q.floor
  let frac := qsub q (f : ℚ)
  if frac < mkRat 1 2 then f
  else if mkRat 1 2 < frac then f + 1
  else if f % 2 = 0 then f else f + 1

/-- Left-pad a digit string with zeros to the given length. -/
def padLeft (len : Nat) (s : String) : String :=
  if s.length ≥ len then s else String.mk (List.replicate (len - s.length) '0') ++ s

/-- Python fixed-point formatting `f"{q:.{prec}f}"` (on the exact rational). -/
def formatFixed (prec : Nat) (q : ℚ) : String :=
  let scaled := roundHalfEven (qmul q ((10 ^ prec : Nat) : ℚ))
  let sign := if scaled < 0 then "-" else ""
  let a := scaled.natAbs
  sign ++ toString (a / 10 ^ prec) ++ "." ++ padLeft prec (toString (a % 10 ^ prec))

/-- Python `f"{n:02d}"`. -/
def pyFormat02d (n : Int) : String :=
  if 0 ≤ n ∧ n < 10 then "0" ++ toString n else toString n

/-- Python `f"{n:04d}"` for a nonnegative value. -/
def pyFormat04d (n : Nat) : String := padLeft 4 (toString n)

/-- Python `str(x)` for an optional int (`None` prints as "None"). -/
def optIntStr (o : Option Int) : String :=
  match o with
  | some n => toString n
  | none => "None"

/-- Python `str(x)` for an optional string (`None` prints as "None"). -/
def optStr (o : Option String) : String :=
  match o with
  | some s => s
  | none => "None"

/-- A Python `datetime`: calendar date as its proleptic Gregorian ordinal,
plus time-of-day fields. -/
structure PyDateTime where
  ordinal : Int
  hour : Int
  minute : Int
  second : Int
  deriving DecidableEq, Repr

/-- Python `datetime.weekday()`: 0 = Monday .. 6 = Sunday. -/
def PyDateTime.weekday (t : PyDateTime) : Int := (t.ordinal - 1) % 7

/-- Python `t + timedelta(minutes=d)`. -/
def PyDateTime.addMinutes (t : PyDateTime) (d : Int) : PyDateTime :=
  let total : Int := (t.ordinal * 24 + t.hour) * 60 + t.minute + d
  { ordinal := total.fdiv 1440
    hour := (total % 1440) / 60
    minute := (total % 1440) % 60
    second := t.second }

/-- A rule record as built by the engine (the dicts appended to `rules`).
Every dict the engine constructs carries exactly the keys read later, so a
plain structure models them exactly.  `maxDuration`/`rate` model the stored
value (`none` = the dict holds Python `None`). -/
structure RuleDict where
  id : String
  type : String
  description : String
  startTime : String
  endTime : String
  days : List Int
  side : Option String := none
  maxDuration : Option Int := none
  rate : Option ℚ := none
  zoneCode : Option String := none
  deriving DecidableEq, Repr

/-- Result tuple of `_determine_status`: (status, reason, parking_type,
expires_at). -/
abbrev PyResult := String × String × String × Option PyDateTime

deriving instance DecidableEq for Except

/-- `_parse_time`: parse "HH:MM" to decimal hours, defensively; any parse
failure (`ValueError`/`IndexError`) yields `0.0`. -/
def parse_time (time_str : String) : ℚ :=
  match splitChar ':' time_str.data with
  | p0 :: p1 :: _ =>
    match pyToIntChars p0, pyToIntChars p1 with
    | some a, some b => qadd (a : ℚ) (qdiv (b : ℚ) 60)
    | _, _ => 0
  | _ => 0

/-- `_time_to_datetime`: convert decimal hours to a datetime on the reference
date via `reference.replace(hour=..., minute=..., second=0, microsecond=0)`.
`datetime.replace` raises `ValueError` when a field is out of range, modelled
by `.error ()`.  (The computed minute value always lies in `[0, 59]`; the
hour can be out of range when the decimal value is negative or `≥ 24`.) -/
def time_to_datetime (decimal_time : ℚ) (reference : PyDateTime) : Except Unit PyDateTime :=
  let hours : Int := pyTrunc decimal_time
  let minutes : Int := pyTrunc (qmul (pyMod1 decimal_time) 60)
  if 0 ≤ hours ∧ hours ≤ 23 ∧ 0 ≤ minutes ∧ minutes ≤ 59 then
    .ok { reference with hour := hours, minute := minutes, second := 0 }
  else
    .error ()

/-- Python `s.replace(pat, rep)` for a single-character pattern, the only
form the engine uses (`rule["type"].replace("_", " ")`). -/
def pyReplaceChar (pat : Char) (rep : List Char) : List Char → List Char
  | [] => []
  | c :: cs =>
    if c = pat then rep ++ pyReplaceChar pat rep cs
    else c :: pyReplaceChar pat rep cs

/-- `rule["type"].replace("_", " ")`. -/
def pyReplaceUnderscore (s : String) : String :=
  String.mk (pyReplaceChar '_' [' '] s.data)

/-- The first check of `_determine_status`: `rule["type"] in ["no_parking",
"no_standing"]`. -/
def isProhibition (r : RuleDict) : Bool :=
  decide (r.type = "no_parking") || decide (r.type = "no_standing")

/-- The street-cleaning loop of `_determine_status` (lines 328-362): scans
the rules in order; an active window returns red, a window starting within
the 30/60-minute bands returns yellow, anything else falls through.  In the
upcoming branch the expiry conversion runs before the band tests, so it can
raise even when the rule is then skipped. -/
def cleaningScan (now : PyDateTime) (current_decimal : ℚ) :
    List RuleDict → Except Unit (Option PyResult)
  | [] => .ok none
  | rule :: rest =>
    if rule.type = "street_cleaning" then
      let start_time := parse_time rule.startTime
      let end_time := parse_time rule.endTime
      if start_time ≤ current_decimal ∧ current_decimal < end_time then
        match time_to_datetime end_time now with
        | .ok expires =>
          .ok (some ("red", "Street cleaning until " ++ rule.endTime,
                     "street_cleaning", some expires))
        | .error u => .error u
      else if current_decimal < start_time then
        let minutes_until := pyTrunc (qmul (qsub start_time current_decimal) 60)
        match time_to_datetime start_time now with
        | .ok expires =>
          if minutes_until ≤ 30 then
            .ok (some ("yellow",
                       "Street cleaning in " ++ toString minutes_until ++ " min - move your car!",
                       "street_cleaning", some expires))
          else if minutes_until ≤ 60 then
            .ok (some ("yellow",
                       "Street cleaning in " ++ toString minutes_until ++ " min",
                       "street_cleaning", some expires))
          else cleaningScan now current_decimal rest
        | .error u => .error u
      else cleaningScan now current_decimal rest
    else cleaningScan now current_decimal rest

/-- The meter branch of `_determine_status` (lines 364-376) applied to the
first meter rule found. -/
def meterResult (now : PyDateTime) (rule : RuleDict) : PyResult :=
  let max_duration := rule.maxDuration
  let expires : Option PyDateTime :=
    match max_duration with
    | some d => if d = 0 then none else some (now.addMinutes d)
    | none => none
  let rate := rule.rate.getD (mkRat 7 2)
  ("yellow",
   "Metered zone - $" ++ formatFixed 2 rate ++ "/hr (max " ++ optIntStr max_duration ++ " min)",
   "meter", expires)

/-- The trailing street-cleaning loop of `_determine_status` (lines 379-390):
first cleaning rule with a future start returns green with the start as
expiry. -/
def laterScan (now : PyDateTime) (current_decimal : ℚ) :
    List RuleDict → Except Unit (Option PyResult)
  | [] => .ok none
  | rule :: rest =>
    if rule.type = "street_cleaning" then
      let start_time := parse_time rule.startTime
      if current_decimal < start_time then
        match time_to_datetime start_time now with
        | .ok expires =>
          .ok (some ("green", "OK for now - cleaning at " ++ rule.startTime,
                     "free", some expires))
        | .error u => .error u
      else laterScan now current_decimal rest
    else laterScan now current_decimal rest

/-- `_determine_status`: the status evaluator. -/
def determine_status (rules : List RuleDict) (now : PyDateTime) (current_decimal : ℚ) :
    Except Unit PyResult :=
  if rules.isEmpty then
    .ok ("green", "Free parking - no restrictions", "free", none)
  else
    match rules.find? isProhibition with
    | some rule =>
      .ok ("red", "No " ++ pyReplaceUnderscore rule.type ++ " zone", rule.type, none)
    | none =>
      match cleaningScan now current_decimal rules with
      | .error u => .error u
      | .ok (some res) => .ok res
      | .ok none =>
        match rules.find? (fun r => decide (r.type = "meter")) with
        | some rule => .ok (meterResult now rule)
        | none =>
          match laterScan now current_decimal rules with
          | .error u => .error u
          | .ok (some res) => .ok res
          | .ok none => .ok ("green", "Free parking - no restrictions", "free", none)

/-- One schedule entry of the cleaning catalogue
(`CLEANING_SCHEDULE["boroughs"][b]["schedules"][i]`); optional fields model
keys read through `.get` with a default. -/
structure CleaningEntry where
  days : List Int := []
  startTime : Option String := none
  endTime : Option String := none
  side : Option String := none
  deriving DecidableEq, Repr

/-- The cleaning catalogue (`nyc_cleaning.json`): borough name to its
schedule list (the intermediate single-field `{"schedules": [...]}` object is
inlined). -/
structure CleaningData where
  boroughs : List (String × List CleaningEntry) := []
  deriving DecidableEq, Repr

/-- Bounding box of a meter zone (`zone["bounds"]`). -/
structure Bounds where
  minLat : Option ℚ := none
  maxLat : Option ℚ := none
  minLng : Option ℚ := none
  maxLng : Option ℚ := none
  deriving DecidableEq, Repr

/-- Python truthiness of the bounds dict (`if bounds:`): nonempty. -/
def Bounds.truthy (b : Bounds) : Bool :=
  b.minLat.isSome || b.maxLat.isSome || b.minLng.isSome || b.maxLng.isSome

/-- A configured meter zone (`METER_ZONES["zones"][i]`). -/
structure MeterZone where
  bounds : Option Bounds := none
  startTime : Option String := none
  endTime : Option String := none
  days : Option (List Int) := none
  maxDuration : Option Int := none
  rate : Option ℚ := none
  code : Option String := none
  name : Option String := none
  deriving DecidableEq, Repr

/-- The default meter entry (`METER_ZONES["default"]`). -/
structure MeterDefault where
  rate : Option ℚ := none
  maxDuration : Option Int := none
  startTime : Option String := none
  endTime : Option String := none
  deriving DecidableEq, Repr

/-- The meter catalogue (`meter_zones.json`). -/
structure MeterData where
  zones : List MeterZone := []
  dflt : Option MeterDefault := none
  deriving DecidableEq, Repr

/-- A holiday entry (`HOLIDAYS["holidays"][i]`); the date string is carried
as its ordinal encoding. -/
structure Holiday where
  date : Option Int := none
  alternateSideSuspended : Option Bool := none
  name : Option String := none
  deriving DecidableEq, Repr

/-- The holiday catalogue (`holidays.json`). -/
structure HolidayData where
  holidays : List Holiday := []
  deriving DecidableEq, Repr

/-- The three module-level data globals, as one parameter. -/
structure Catalogue where
  cleaning : CleaningData := {}
  meters : MeterData := {}
  holidays : HolidayData := {}
  deriving DecidableEq, Repr

/-- `ParkingStatusResult` (the `rules_json` serialization of `rules` is not
modelled). -/
structure ParkingStatusResult where
  status : String
  reason : String
  parking_type : String
  rules : List RuleDict
  expires_at : Option PyDateTime
  address : Option String
  zone_code : Option String
  borough : Option String
  recommendations : List String
  deriving DecidableEq, Repr

/-- `_get_borough`: bounding-box borough classification. -/
def get_borough (lat lng : ℚ) : String :=
  if lat > mkRat 4085 100 then "Bronx"
  else if lng < mkRat (-7397) 100 ∧ lat < mkRat 407 10 then "Staten Island"
  else if lng > mkRat (-7387) 100 then "Queens"
  else if lat < mkRat 407 10 ∧ lng > mkRat (-7404) 100 then "Brooklyn"
  else "Manhattan"

/-- `_is_holiday`: the date appears in the holiday list with
`alternateSideSuspended` true. -/
def is_holiday (hd : HolidayData) (date : PyDateTime) : Bool :=
  hd.holidays.any (fun h => decide (h.date = some date.ordinal) && h.alternateSideSuspended.getD false)

/-- `_get_holiday_name`: name of the first holiday entry matching the date
(suspended or not). -/
def get_holiday_name (hd : HolidayData) (date : PyDateTime) : Option String :=
  (hd.holidays.find? (fun h => decide (h.date = some date.ordinal))).bind (fun h => h.name)

/-- The built-in fallback schedule table of `_get_street_cleaning_rules`
(`default_schedules`): day ↦ (start, end, side). -/
def default_schedules (day : Int) : Option (String × String × String) :=
  if day = 0 then some ("08:30", "10:00", "North/East")
  else if day = 1 then some ("11:00", "12:30", "South/West")
  else if day = 2 then some ("08:30", "10:00", "North/East")
  else if day = 3 then some ("11:00", "12:30", "South/West")
  else none

/-- `_get_street_cleaning_rules`: borough schedules matching the day of
week, else the built-in fallback table.  (`lat`/`lng` are unused in the
source as well.) -/
def get_street_cleaning_rules (cs : CleaningData) (lat lng : ℚ)
    (day_of_week : Int) (borough : String) : List RuleDict :=
  let schedules := (cs.boroughs.lookup borough).getD []
  let rules := schedules.filterMap (fun schedule =>
    if day_of_week ∈ schedule.days then
      some { id := "cleaning-" ++ borough ++ "-" ++ schedule.side.getD "unknown"
             type := "street_cleaning"
             description := "Alternate side parking - " ++ schedule.side.getD "" ++ " side"
             startTime := schedule.startTime.getD "08:30"
             endTime := schedule.endTime.getD "10:00"
             days := schedule.days
             side := schedule.side
             maxDuration := none
             rate := none }
    else none)
  if rules.isEmpty then
    match default_schedules day_of_week with
    | some sched =>
      [{ id := "cleaning-default-" ++ toString day_of_week
         type := "street_cleaning"
         description := "Alternate side parking - " ++ sched.2.2 ++ " side"
         startTime := sched.1
         endTime := sched.2.1
         days := [day_of_week]
         side := some sched.2.2
         maxDuration := none
         rate := none }]
    | none => []
  else rules

/-- `int(zone.get("startTime", ...).split(":")[0])`: leading-hour parse; a
`none` models the `ValueError` raised by `int`. -/
def parse_hour_head (s : String) : Option Int :=
  match splitChar ':' s.data with
  | p :: _ => pyToIntChars p
  | [] => none

/-- Zone-code fabrication of the default meter rule:
`f"{int(abs(lat * 1000) % 10000):04d}"`. -/
def zoneCodeOf (lat : ℚ) : String :=
  let v : ℚ := qabs (qmul lat 1000)
  let m : ℚ := qsub v (qmul 10000 ((qdiv v 10000).floor : ℚ))
  pyFormat04d (pyTrunc m).toNat

/-- The configured-zone loop of `_check_meter_zone` (lines 233-255): first
zone with truthy bounds containing the point whose leading-hour window
contains the hour.  The zone's `days` list is copied into the rule but never
tested.  A non-numeric leading hour raises (`.error`). -/
def zoneScan (lat lng : ℚ) (hour : Int) : List MeterZone → Except Unit (Option RuleDict)
  | [] => .ok none
  | zone :: rest =>
    let bounds := zone.bounds.getD {}
    if bounds.truthy then
      if bounds.minLat.getD 0 ≤ lat ∧ lat ≤ bounds.maxLat.getD 90 ∧
         bounds.minLng.getD (-180) ≤ lng ∧ lng ≤ bounds.maxLng.getD 0 then
        match parse_hour_head (zone.startTime.getD "07:00"),
              parse_hour_head (zone.endTime.getD "19:00") with
        | some start_hour, some end_hour =>
          if start_hour ≤ hour ∧ hour < end_hour then
            .ok (some { id := "meter-" ++ zone.code.getD "unknown"
                        type := "meter"
                        description := "Metered parking - " ++ zone.name.getD "Zone"
                        startTime := zone.startTime.getD "07:00"
                        endTime := zone.endTime.getD "19:00"
                        days := zone.days.getD [0, 1, 2, 3, 4, 5]
                        maxDuration := some (zone.maxDuration.getD 120)
                        rate := some (zone.rate.getD (mkRat 7 2))
                        zoneCode := zone.code })
          else zoneScan lat lng hour rest
        | _, _ => .error ()
      else zoneScan lat lng hour rest
    else zoneScan lat lng hour rest

/-- `_check_meter_zone`: Sunday short-circuits to no rule; otherwise the
configured zones are scanned, and failing that a default rule is fabricated
when the hour lies in the default window.  The default entry's fields are
read (and its hours parsed) before the window test, as in the source. -/
def check_meter_zone (mz : MeterData) (lat lng : ℚ) (hour : Int) (day_of_week : Int) :
    Except Unit (Option RuleDict) :=
  if day_of_week = 6 then .ok none
  else
    match zoneScan lat lng hour mz.zones with
    | .error u => .error u
    | .ok (some r) => .ok (some r)
    | .ok none =>
      let d := mz.dflt.getD {}
      let default_rate := d.rate.getD (mkRat 7 2)
      let default_max := d.maxDuration.getD 120
      match parse_hour_head (d.startTime.getD "07:00"),
            parse_hour_head (d.endTime.getD "19:00") with
      | some default_start, some default_end =>
        if default_start ≤ hour ∧ hour < default_end then
          let zone_code := zoneCodeOf lat
          .ok (some { id := "meter-" ++ zone_code
                      type := "meter"
                      description := "Metered parking zone"
                      startTime := pyFormat02d default_start ++ ":00"
                      endTime := pyFormat02d default_end ++ ":00"
                      days := [0, 1, 2, 3, 4, 5]
                      maxDuration := some default_max
                      rate := some default_rate
                      zoneCode := some zone_code })
        else .ok none
      | _, _ => .error ()

/-- `_check_special_restrictions`: a placeholder returning no rules. -/
def check_special_restrictions (lat lng : ℚ) (day_of_week : Int) (hour : Int) :
    List RuleDict := []

/-- `_generate_recommendations`. -/
def generate_recommendations (status : String) (parking_type : String)
    (rules : List RuleDict) (now : PyDateTime) : List String :=
  if status = "red" then
    if parking_type = "street_cleaning" then
      ["Find parking on the opposite side of the street",
       "Check nearby blocks for available spots"]
    else
      ["This location does not allow parking",
       "Look for legal parking nearby"]
  else if status = "yellow" then
    if parking_type = "meter" then
      ["Pay with ParkMobile or at the meter",
       "Set a reminder before time expires"] ++
      rules.filterMap (fun rule =>
        if rule.type = "meter" then
          match rule.maxDuration with
          | some d =>
            if d = 0 then none
            else some ("Maximum parking time: " ++ toString d ++ " minutes")
          | none => none
        else none)
    else if parking_type = "street_cleaning" then
      ["Move your car before cleaning begins",
       "Set a reminder to avoid a ticket"]
    else []
  else if status = "green" then
    match rules.find? (fun rule => decide (rule.type = "street_cleaning")) with
    | some rule => ["Remember: cleaning at " ++ rule.startTime]
    | none => []
  else []

/-- `get_parking_status`, parameterised by the loaded catalogue and the
clock reading `now`. -/
def get_parking_status (cat : Catalogue) (latitude longitude : ℚ) (now : PyDateTime) :
    Except Unit ParkingStatusResult :=
  let day_of_week := now.weekday
  let current_decimal : ℚ := qadd (now.hour : ℚ) (qdiv (now.minute : ℚ) 60)
  let borough := get_borough latitude longitude
  let address := formatFixed 4 latitude ++ ", " ++ formatFixed 4 longitude
  let is_hol := is_holiday cat.holidays now
  let holiday_name := if is_hol then get_holiday_name cat.holidays now else none
  let cleaningRules :=
    if is_hol then []
    else get_street_cleaning_rules cat.cleaning latitude longitude day_of_week borough
  let recs0 : List String :=
    if is_hol then ["Alternate side parking suspended (" ++ optStr holiday_name ++ ")"]
    else []
  match check_meter_zone cat.meters latitude longitude now.hour day_of_week with
  | .error u => .error u
  | .ok meterOpt =>
    let rules := cleaningRules ++ meterOpt.toList ++
      check_special_restrictions latitude longitude day_of_week now.hour
    let zone_code := meterOpt.bind (fun r => r.zoneCode)
    match determine_status rules now current_decimal with
    | .error u => .error u
    | .ok res =>
      .ok { status := res.1
            reason := res.2.1
            parking_type := res.2.2.1
            rules := rules
            expires_at := res.2.2.2
            address := some address
            zone_code := zone_code
            borough := some borough
            recommendations := recs0 ++ generate_recommendations res.1 res.2.2.1 rules now }

/-- A street-cleaning rule whose window contains the current time. -/
def cleaningActive (current_decimal : ℚ) (r : RuleDict) : Bool :=
  decide (r.type = "street_cleaning") &&
    decide (parse_time r.startTime ≤ current_decimal ∧
            current_decimal < parse_time r.endTime)

/-- A street-cleaning rule on which the cleaning loop of
`_determine_status` returns (rather than falling through): its window is
active, or it starts in the future within the 60-minute warning band (with
the truncated minute count of the source). -/
def cleaningDecisive (current_decimal : ℚ) (r : RuleDict) : Bool :=
  decide (r.type = "street_cleaning") &&
    (decide (parse_time r.startTime ≤ current_decimal ∧
             current_decimal < parse_time r.endTime) ||
     (decide (current_decimal < parse_time r.startTime) &&
      decide (pyTrunc (qmul (qsub (parse_time r.startTime) current_decimal) 60) ≤ 60)))

/-- The verdict the cleaning loop issues for a single decisive rule. -/
def cleaningVerdict (now : PyDateTime) (current_decimal : ℚ) (r : RuleDict) :
    Except Unit PyResult :=
  let start_time := parse_time r.startTime
  let end_time := parse_time r.endTime
  if start_time ≤ current_decimal ∧ current_decimal < end_time then
    (time_to_datetime end_time now).map (fun expires =>
      ("red", "Street cleaning until " ++ r.endTime, "street_cleaning", some expires))
  else
    let minutes_until := pyTrunc (qmul (qsub start_time current_decimal) 60)
    (time_to_datetime start_time now).map (fun expires =>
      if minutes_until ≤ 30 then
        ("yellow", "Street cleaning in " ++ toString minutes_until ++ " min - move your car!",
         "street_cleaning", some expires)
      else
        ("yellow", "Street cleaning in " ++ toString minutes_until ++ " min",
         "street_cleaning", some expires))

/-- A decimal-hour value whose truncation is a legal `datetime` hour. -/
def goodTime (q : ℚ) : Prop := 0 ≤ pyTrunc q ∧ pyTrunc q ≤ 23

instance (q : ℚ) : Decidable (goodTime q) := by unfold goodTime; infer_instance

/-- A rule record whose time strings, when it is a street-cleaning rule,
parse to in-range hours (so `_time_to_datetime` cannot raise on them). -/
def GoodRule (r : RuleDict) : Prop :=
  r.type = "street_cleaning" →
    goodTime (parse_time r.startTime) ∧ goodTime (parse_time r.endTime)

instance (r : RuleDict) : Decidable (GoodRule r) := by unfold GoodRule; infer_instance

/-- A cleaning catalogue entry whose (defaulted) time strings parse to
in-range hours. -/
def goodCleaningEntry (e : CleaningEntry) : Prop :=
  goodTime (parse_time (e.startTime.getD "08:30")) ∧
  goodTime (parse_time (e.endTime.getD "10:00"))

instance (e : CleaningEntry) : Decidable (goodCleaningEntry e) := by
  unfold goodCleaningEntry; infer_instance

/-- A meter zone whose (defaulted) time strings have a numeric leading hour
(so `int(...)` cannot raise on them). -/
def goodZone (z : MeterZone) : Prop :=
  (parse_hour_head (z.startTime.getD "07:00")).isSome = true ∧
  (parse_hour_head (z.endTime.getD "19:00")).isSome = true

instance (z : MeterZone) : Decidable (goodZone z) := by unfold goodZone; infer_instance

/-- A default meter entry whose (defaulted) time strings have a numeric
leading hour. -/
def goodDefault (d : MeterDefault) : Prop :=
  (parse_hour_head (d.startTime.getD "07:00")).isSome = true ∧
  (parse_hour_head (d.endTime.getD "19:00")).isSome = true

instance (d : MeterDefault) : Decidable (goodDefault d) := by
  unfold goodDefault; infer_instance

/-- A well-formed catalogue: every time string the engine parses eagerly is
numeric, and every cleaning window lies inside the legal hour range. -/
def WFCatalogue (cat : Catalogue) : Prop :=
  (∀ p ∈ cat.cleaning.boroughs, ∀ e ∈ p.2, goodCleaningEntry e) ∧
  (∀ z ∈ cat.meters.zones, goodZone z) ∧
  goodDefault (cat.meters.dflt.getD {})

/-- The zone's truthy bounding box contains the point. -/
def zoneContains (lat lng : ℚ) (z : MeterZone) : Bool :=
  let bounds := z.bounds.getD {}
  bounds.truthy &&
  decide (bounds.minLat.getD 0 ≤ lat ∧ lat ≤ bounds.maxLat.getD 90 ∧
          bounds.minLng.getD (-180) ≤ lng ∧ lng ≤ bounds.maxLng.getD 0)

/-- The condition under which the configured-zone loop selects a zone:
truthy bounds containing the point and an hour inside the zone's
leading-hour window.  The zone's `days` list plays no part. -/
def zoneHit (lat lng : ℚ) (hour : Int) (z : MeterZone) : Bool :=
  zoneContains lat lng z &&
  (match parse_hour_head (z.startTime.getD "07:00"),
         parse_hour_head (z.endTime.getD "19:00") with
   | some s, some e => decide (s ≤ hour ∧ hour < e)
   | _, _ => false)

/-- The rule record the configured-zone loop builds for a selected zone. -/
def zoneRule (z : MeterZone) : RuleDict :=
  { id := "meter-" ++ z.code.getD "unknown"
    type := "meter"
    description := "Metered parking - " ++ z.name.getD "Zone"
    startTime := z.startTime.getD "07:00"
    endTime := z.endTime.getD "19:00"
    days := z.days.getD [0, 1, 2, 3, 4, 5]
    maxDuration := some (z.maxDuration.getD 120)
    rate := some (z.rate.getD (mkRat 7 2))
    zoneCode := z.code }

/-- The fabricated default meter rule, for parsed default hours `ds`/`de`. -/
def defaultMeterRule (d : MeterDefault) (lat : ℚ) (ds de : Int) : RuleDict :=
  { id := "meter-" ++ zoneCodeOf lat
    type := "meter"
    description := "Metered parking zone"
    startTime := pyFormat02d ds ++ ":00"
    endTime := pyFormat02d de ++ ":00"
    days := [0, 1, 2, 3, 4, 5]
    maxDuration := some (d.maxDuration.getD 120)
    rate := some (d.rate.getD (mkRat 7 2))
    zoneCode := some (zoneCodeOf lat) }

/-- Test fixture: a street-cleaning rule record with the given window. -/
def mkCleaning (s e : String) : RuleDict :=
  { id := "cleaning-test"
    type := "street_cleaning"
    description := "Alternate side parking - test side"
    startTime := s
    endTime := e
    days := [0]
    side := some "test" }

/-- Test fixture: a Monday at the given time (ordinal 738998 is a Monday in
the proleptic Gregorian calendar). -/
def monday (h m : Int) : PyDateTime :=
  { ordinal := 738998, hour := h, minute := m, second := 0 }

/-- Test fixture: a Sunday at the given time (ordinal 739004). -/
def sunday (h m : Int) : PyDateTime :=
  { ordinal := 739004, hour := h, minute := m, second := 0 }

/-- Test fixture: a meter rule record with a 120-minute cap. -/
def meterFixture : RuleDict :=
  { id := "meter-M1"
    type := "meter"
    description := "Metered parking - Test"
    startTime := "07:00"
    endTime := "19:00"
    days := [0, 1, 2, 3, 4, 5]
    maxDuration := some 120
    rate := some (mkRat 7 2)
    zoneCode := some "M1" }

/-- Test fixture: a meter rule record with a zero-minute cap. -/
def meterZeroCap : RuleDict :=
  { meterFixture with id := "meter-M0", maxDuration := some 0, zoneCode := some "M0" }

/-- Test fixture: a no-standing restriction record. -/
def noStandingFixture : RuleDict :=
  { id := "special-1"
    type := "no_standing"
    description := "No standing zone"
    startTime := "00:00"
    endTime := "23:59"
    days := [0] }

/-- Test fixture: a configured meter zone restricted (on paper) to Mondays. -/
def zoneMondayOnly : MeterZone :=
  { bounds := some { minLat := some 40, maxLat := some 41,
                     minLng := some (mkRat (-741) 10), maxLng := some (mkRat (-735) 10) }
    startTime := some "07:00"
    endTime := some "19:00"
    days := some [0]
    maxDuration := some 60
    rate := some 2
    code := some "Z9"
    name := some "Test Zone" }

/-- Test fixture: a meter catalogue holding only `zoneMondayOnly`. -/
def metersMondayOnly : MeterData := { zones := [zoneMondayOnly] }

/-- Test fixture: a cleaning catalogue whose Manhattan schedule has an
out-of-range end hour ("25:00"). -/
def catBadEndHour : Catalogue :=
  { cleaning := { boroughs :=
      [("Manhattan",
        [{ days := [0], startTime := some "00:00", endTime := some "25:00",
           side := some "North" }])] } }

/-- Test fixture: a catalogue whose only content is a suspended holiday on
ordinal 738998 (the `monday` fixture's date). -/
def catHolidayOnly : Catalogue :=
  { holidays := { holidays :=
      [{ date := some 738998, alternateSideSuspended := some true,
         name := some "Test Day" }] } }

/-- Test fixture: a catalogue with one Monday-only meter zone and nothing
else. -/
def catZoneOnly : Catalogue := { meters := metersMondayOnly }

/-! Arithmetic bridge lemmas: the kernel-computable operations agree with
the library's field operations on `ℚ`. -/

theorem den_cast_ne_zero (a : ℚ) : ((a.den : ℚ)) ≠ 0 :=
  Nat.cast_ne_zero.mpr a.den_nz

theorem qadd_eq (a b : ℚ) : qadd a b = a + b := by
  have ha := den_cast_ne_zero a
  have hb := den_cast_ne_zero b
  rw [qadd, Rat.mkRat_eq_div]
  conv_rhs => rw [← Rat.num_div_den a, ← Rat.num_div_den b]
  rw [div_add_div _ _ ha hb]
  push_cast
  ring_nf

theorem qsub_eq (a b : ℚ) : qsub a b = a - b := by
  have ha := den_cast_ne_zero a
  have hb := den_cast_ne_zero b
  rw [qsub, Rat.mkRat_eq_div]
  conv_rhs => rw [← Rat.num_div_den a, ← Rat.num_div_den b]
  rw [div_sub_div _ _ ha hb]
  push_cast
  ring_nf

theorem qmul_eq (a b : ℚ) : qmul a b = a * b := by
  have ha := den_cast_ne_zero a
  have hb := den_cast_ne_zero b
  rw [qmul, Rat.mkRat_eq_div]
  conv_rhs => rw [← Rat.num_div_den a, ← Rat.num_div_den b]
  rw [div_mul_div_comm]
  push_cast
  ring_nf

theorem qneg_eq (a : ℚ) : qneg a = -a := by
  rw [qneg, Rat.mkRat_eq_div, Int.cast_neg, neg_div, Rat.num_div_den]

theorem qdiv_eq (a b : ℚ) : qdiv a b = a / b := by
  rcases eq_or_ne b 0 with hb | hb
  · subst hb
    simp [qdiv, Rat.mkRat_eq_div]
  · have ha := den_cast_ne_zero a
    have hbd := den_cast_ne_zero b
    have hbn : ((b.num : ℚ)) ≠ 0 := Int.cast_ne_zero.mpr (Rat.num_ne_zero.mpr hb)
    have hA : (a.num : ℚ) = a * (a.den : ℚ) := (div_eq_iff ha).mp (Rat.num_div_den a)
    have hB : (b.num : ℚ) = b * (b.den : ℚ) := (div_eq_iff hbd).mp (Rat.num_div_den b)
    have key : ((a.num * (b.den : Int) : Int) : ℚ) / (((a.den : Int) * b.num : Int) : ℚ) = a / b := by
      push_cast
      rw [div_eq_div_iff (mul_ne_zero ha hbn) hb, hA, hB]
      ring
    rw [qdiv]
    rcases le_or_lt 0 ((a.den : Int) * b.num) with hd | hd
    · rw [if_pos hd, Rat.mkRat_eq_div, ← key]
      congr 1
      exact_mod_cast congrArg (fun z : Int => (z : ℚ)) (Int.toNat_of_nonneg hd)
    · rw [if_neg (not_le.mpr hd), Rat.mkRat_eq_div, ← key]
      have hpos : (0 : Int) ≤ -((a.den : Int) * b.num) := by omega
      have hcast : (((-((a.den : Int) * b.num)).toNat : Nat) : ℚ)
          = -(((a.den : Int) * b.num : Int) : ℚ) := by
        exact_mod_cast congrArg (fun z : Int => (z : ℚ)) (Int.toNat_of_nonneg hpos)
      rw [hcast]
      push_cast
      rw [neg_div_neg_eq]

theorem ratFloor_eq (q : ℚ) : q.floor = ⌊q⌋ :=
  (Rat.floor_def' q).trans Rat.floor_def.symm

theorem pyMod1_eq (q : ℚ) : pyMod1 q = Int.fract q := by
  rw [pyMod1, qsub_eq, ratFloor_eq, Int.fract]

theorem pyTrunc_of_nonneg {q : ℚ} (h : 0 ≤ q) : pyTrunc q = ⌊q⌋ := by
  rw [pyTrunc, if_pos h, ratFloor_eq]

theorem minute_bounds (q : ℚ) :
    0 ≤ pyTrunc (qmul (pyMod1 q) 60) ∧ pyTrunc (qmul (pyMod1 q) 60) ≤ 59 := by
  have h0 : (0 : ℚ) ≤ Int.fract q * 60 := mul_nonneg (Int.fract_nonneg q) (by norm_num)
  have h1 : Int.fract q * 60 < 60 := by
    have := Int.fract_lt_one q
    nlinarith
  rw [qmul_eq, pyMod1_eq, pyTrunc_of_nonneg h0]
  refine ⟨Int.floor_nonneg.mpr h0, ?_⟩
  have h2 : ⌊Int.fract q * 60⌋ < 60 := Int.floor_lt.mpr (by exact_mod_cast h1)
  omega

theorem time_to_datetime_ok (q : ℚ) (ref : PyDateTime) (h : goodTime q) :
    time_to_datetime q ref =
      .ok { ref with hour := pyTrunc q, minute := pyTrunc (qmul (pyMod1 q) 60),
                     second := 0 } := by
  obtain ⟨h1, h2⟩ := h
  obtain ⟨h3, h4⟩ := minute_bounds q
  simp only [time_to_datetime]
  rw [if_pos ⟨h1, h2, h3, h4⟩]

/-! Characterisation of the cleaning loop: it issues the verdict of the
first rule on which it does not fall through. -/

theorem cleaningScan_eq_find (now : PyDateTime) (cd : ℚ) :
    ∀ rules : List RuleDict, (∀ r ∈ rules, GoodRule r) →
      cleaningScan now cd rules =
        (match rules.find? (cleaningDecisive cd) with
         | some r => (cleaningVerdict now cd r).map some
         | none => .ok none) := by
  intro rules
  induction rules with
  | nil => intro _; simp [cleaningScan, List.find?]
  | cons rule rest ih =>
    intro hg
    have hgr : GoodRule rule := hg rule (List.mem_cons_self _ _)
    have hgrest : ∀ r ∈ rest, GoodRule r := fun r hr => hg r (List.mem_cons_of_mem _ hr)
    by_cases hty : rule.type = "street_cleaning"
    · by_cases hact : parse_time rule.startTime ≤ cd ∧ cd < parse_time rule.endTime
      · have hdec : cleaningDecisive cd rule = true := by
          simp [cleaningDecisive, hty, hact]
        rw [List.find?_cons_of_pos _ hdec]
        simp only [cleaningScan]
        rw [if_pos hty, if_pos hact]
        simp only [cleaningVerdict]
        rw [if_pos hact]
        cases htd : time_to_datetime (parse_time rule.endTime) now <;> simp [Except.map]
      · by_cases hup : cd < parse_time rule.startTime
        · by_cases hband : pyTrunc (qmul (qsub (parse_time rule.startTime) cd) 60) ≤ 60
          · have hdec : cleaningDecisive cd rule = true := by
              simp [cleaningDecisive, hty, hact, hup, hband]
            rw [List.find?_cons_of_pos _ hdec]
            simp only [cleaningScan]
            rw [if_pos hty, if_neg hact, if_pos hup]
            simp only [cleaningVerdict]
            rw [if_neg hact]
            cases htd : time_to_datetime (parse_time rule.startTime) now with
            | error u => simp [Except.map]
            | ok e =>
              simp only [Except.map]
              by_cases h30 : pyTrunc (qmul (qsub (parse_time rule.startTime) cd) 60) ≤ 30
              · rw [if_pos h30, if_pos h30]
              · rw [if_neg h30, if_neg h30, if_pos hband]
          · have hdec : ¬ (cleaningDecisive cd rule = true) := by
              simp [cleaningDecisive, hty, hact, hup, hband]
            rw [List.find?_cons_of_neg _ hdec]
            simp only [cleaningScan]
            rw [if_pos hty, if_neg hact, if_pos hup]
            have h30 : ¬ (pyTrunc (qmul (qsub (parse_time rule.startTime) cd) 60) ≤ 30) :=
              fun h => hband (h.trans (by norm_num))
            cases htd : time_to_datetime (parse_time rule.startTime) now with
            | error u =>
              rw [time_to_datetime_ok _ _ (hgr hty).1] at htd
              simp at htd
            | ok e =>
              simp only [if_neg h30, if_neg hband]
              exact ih hgrest
        · have hdec : ¬ (cleaningDecisive cd rule = true) := by
            simp [cleaningDecisive, hty, hact, hup]
          rw [List.find?_cons_of_neg _ hdec]
          simp only [cleaningScan]
          rw [if_pos hty, if_neg hact, if_neg hup]
          exact ih hgrest
    · have hdec : ¬ (cleaningDecisive cd rule = true) := by
        simp [cleaningDecisive, hty]
      rw [List.find?_cons_of_neg _ hdec]
      simp only [cleaningScan]
      rw [if_neg hty]
      exact ih hgrest

theorem cleaningVerdict_ok (now : PyDateTime) (cd : ℚ) (r : RuleDict)
    (hty : r.type = "street_cleaning") (hg : GoodRule r) :
    ∃ res, cleaningVerdict now cd r = .ok res := by
  obtain ⟨h1, h2⟩ := hg hty
  unfold cleaningVerdict
  by_cases hact : parse_time r.startTime ≤ cd ∧ cd < parse_time r.endTime
  · rw [if_pos hact, time_to_datetime_ok _ _ h2]
    exact ⟨_, rfl⟩
  · rw [if_neg hact, time_to_datetime_ok _ _ h1]
    exact ⟨_, rfl⟩

theorem cleaningScan_status (now : PyDateTime) (cd : ℚ) :
    ∀ (rules : List RuleDict) (res : PyResult),
      cleaningScan now cd rules = .ok (some res) → res.1 = "red" ∨ res.1 = "yellow" := by
  intro rules
  induction rules with
  | nil => intro res h; simp [cleaningScan] at h
  | cons rule rest ih =>
    intro res h
    simp only [cleaningScan] at h
    by_cases hty : rule.type = "street_cleaning"
    · rw [if_pos hty] at h
      by_cases hact : parse_time rule.startTime ≤ cd ∧ cd < parse_time rule.endTime
      · rw [if_pos hact] at h
        cases htd : time_to_datetime (parse_time rule.endTime) now with
        | error u => simp only [htd] at h; cases h
        | ok e =>
          simp only [htd, Except.ok.injEq, Option.some.injEq] at h
          subst h
          left; rfl
      · rw [if_neg hact] at h
        by_cases hup : cd < parse_time rule.startTime
        · rw [if_pos hup] at h
          cases htd : time_to_datetime (parse_time rule.startTime) now with
          | error u => simp only [htd] at h; cases h
          | ok e =>
            simp only [htd] at h
            split_ifs at h with h30 h60
            · simp only [Except.ok.injEq, Option.some.injEq] at h
              subst h; right; rfl
            · simp only [Except.ok.injEq, Option.some.injEq] at h
              subst h; right; rfl
            · exact ih res h
        · rw [if_neg hup] at h
          exact ih res h
    · rw [if_neg hty] at h
      exact ih res h

theorem laterScan_ok (now : PyDateTime) (cd : ℚ) :
    ∀ rules : List RuleDict, (∀ r ∈ rules, GoodRule r) →
      ∃ o, laterScan now cd rules = .ok o := by
  intro rules
  induction rules with
  | nil => intro _; exact ⟨none, rfl⟩
  | cons rule rest ih =>
    intro hg
    have hgr : GoodRule rule := hg rule (List.mem_cons_self _ _)
    have hgrest := fun r hr => hg r (List.mem_cons_of_mem _ hr)
    simp only [laterScan]
    by_cases hty : rule.type = "street_cleaning"
    · rw [if_pos hty]
      by_cases hup : cd < parse_time rule.startTime
      · rw [if_pos hup, time_to_datetime_ok _ _ (hgr hty).1]
        exact ⟨_, rfl⟩
      · rw [if_neg hup]
        exact ih hgrest
    · rw [if_neg hty]
      exact ih hgrest

theorem isEmpty_false_of_ne_nil {rules : List RuleDict} (h : rules ≠ []) :
    ¬ (rules.isEmpty = true) := by
  cases rules with
  | nil => exact absurd rfl h
  | cons a l => simp [List.isEmpty]

theorem determine_status_of_prohibition (rules : List RuleDict) (now : PyDateTime)
    (cd : ℚ) (p : RuleDict) (hp : rules.find? isProhibition = some p) :
    determine_status rules now cd =
      .ok ("red", "No " ++ pyReplaceUnderscore p.type ++ " zone", p.type, none) := by
  have hne : rules ≠ [] := by rintro rfl; simp [List.find?] at hp
  rw [determine_status, if_neg (isEmpty_false_of_ne_nil hne)]
  simp only [hp]

theorem determine_status_of_cleaning (rules : List RuleDict) (now : PyDateTime)
    (cd : ℚ) (r : RuleDict)
    (hg : ∀ x ∈ rules, GoodRule x)
    (hnp : rules.find? isProhibition = none)
    (hdec : rules.find? (cleaningDecisive cd) = some r) :
    determine_status rules now cd = cleaningVerdict now cd r := by
  have hne : rules ≠ [] := by rintro rfl; simp [List.find?] at hdec
  rw [determine_status, if_neg (isEmpty_false_of_ne_nil hne)]
  simp only [hnp]
  rw [cleaningScan_eq_find now cd rules hg]
  simp only [hdec]
  cases hv : cleaningVerdict now cd r <;> simp [Except.map]

theorem determine_status_of_meter (rules : List RuleDict) (now : PyDateTime)
    (cd : ℚ) (m : RuleDict)
    (hg : ∀ x ∈ rules, GoodRule x)
    (hnp : rules.find? isProhibition = none)
    (hdec : rules.find? (cleaningDecisive cd) = none)
    (hm : rules.find? (fun r => decide (r.type = "meter")) = some m) :
    determine_status rules now cd = .ok (meterResult now m) := by
  have hne : rules ≠ [] := by rintro rfl; simp [List.find?] at hm
  rw [determine_status, if_neg (isEmpty_false_of_ne_nil hne)]
  simp only [hnp]
  rw [cleaningScan_eq_find now cd rules hg]
  simp only [hdec, hm]

theorem meter_present_not_green (rules : List RuleDict) (now : PyDateTime)
    (cd : ℚ) (m : RuleDict) (res : PyResult)
    (hmem : m ∈ rules) (hmty : m.type = "meter")
    (hres : determine_status rules now cd = .ok res) :
    ¬ (res.1 = "green" ∧ res.2.2.1 = "free" ∧ res.2.2.2 = none) := by
  have hne : rules ≠ [] := by rintro rfl; cases hmem
  rw [determine_status, if_neg (isEmpty_false_of_ne_nil hne)] at hres
  cases hp : rules.find? isProhibition with
  | some p =>
    simp only [hp, Except.ok.injEq] at hres
    subst hres
    rintro ⟨h, -, -⟩
    simp at h
  | none =>
    simp only [hp] at hres
    cases hcs : cleaningScan now cd rules with
    | error u => simp only [hcs] at hres; cases hres
    | ok o =>
      cases o with
      | some r0 =>
        simp only [hcs, Except.ok.injEq] at hres
        rintro ⟨hgreen, -, -⟩
        rw [← hres] at hgreen
        rcases cleaningScan_status now cd rules r0 hcs with h | h <;>
          rw [hgreen] at h <;> exact absurd h (by decide)
      | none =>
        simp only [hcs] at hres
        cases hm : rules.find? (fun r => decide (r.type = "meter")) with
        | none =>
          exact absurd (by simp [hmty]) (List.find?_eq_none.mp hm m hmem)
        | some m0 =>
          simp only [hm, Except.ok.injEq] at hres
          subst hres
          rintro ⟨hgreen, -, -⟩
          have hy : (meterResult now m0).1 = "yellow" := rfl
          rw [hy] at hgreen
          exact absurd hgreen (by decide)

theorem mem_of_lookup {α β : Type} [BEq α] [LawfulBEq α] {l : List (α × β)} {k : α} {v : β}
    (h : l.lookup k = some v) : (k, v) ∈ l := by
  obtain ⟨l1, l2, rfl, -⟩ := List.lookup_eq_some_iff.mp h
  exact List.mem_append.mpr (Or.inr (List.mem_cons_self _ _))

theorem cleaning_rules_cases (cs : CleaningData) (lat lng : ℚ) (d : Int) (b : String)
    (r : RuleDict) (hr : r ∈ get_street_cleaning_rules cs lat lng d b) :
    (∃ l, cs.boroughs.lookup b = some l ∧ ∃ e ∈ l,
        r.type = "street_cleaning" ∧
        r.startTime = e.startTime.getD "08:30" ∧ r.endTime = e.endTime.getD "10:00") ∨
    (∃ sched, default_schedules d = some sched ∧
        r.type = "street_cleaning" ∧ r.startTime = sched.1 ∧ r.endTime = sched.2.1) := by
  simp only [get_street_cleaning_rules] at hr
  split at hr
  · -- fallback branch
    right
    cases hs : default_schedules d with
    | none => rw [hs] at hr; cases hr
    | some sched =>
      rw [hs] at hr
      rcases List.mem_singleton.mp hr with rfl
      exact ⟨sched, rfl, rfl, rfl, rfl⟩
  · -- borough schedules branch
    left
    rcases List.mem_filterMap.mp hr with ⟨e, he, hfe⟩
    cases hlk : cs.boroughs.lookup b with
    | none => rw [hlk] at he; cases he
    | some l =>
      rw [hlk] at he
      refine ⟨l, rfl, e, he, ?_⟩
      by_cases hd : d ∈ e.days
      · rw [if_pos hd] at hfe
        rcases Option.some.injEq _ _ ▸ hfe with rfl
        exact ⟨rfl, rfl, rfl⟩
      · rw [if_neg hd] at hfe; cases hfe

theorem cleaning_rules_good (cs : CleaningData) (lat lng : ℚ) (d : Int) (b : String)
    (hwf : ∀ p ∈ cs.boroughs, ∀ e ∈ p.2, goodCleaningEntry e)
    (r : RuleDict) (hr : r ∈ get_street_cleaning_rules cs lat lng d b) :
    GoodRule r := by
  rcases cleaning_rules_cases cs lat lng d b r hr with
    ⟨l, hlk, e, he, -, hs, hen⟩ | ⟨sched, hds, -, hs, hen⟩
  · intro _
    have := hwf (b, l) (mem_of_lookup hlk) e he
    rw [hs, hen]
    exact this
  · intro _
    rw [hs, hen]
    unfold default_schedules at hds
    split_ifs at hds <;> simp only [Option.some.injEq] at hds <;> rw [← hds] <;>
      exact (by decide)

theorem zoneScan_skip (lat lng : ℚ) (hour : Int) :
    ∀ zones : List MeterZone, (∀ z ∈ zones, zoneContains lat lng z = false) →
      zoneScan lat lng hour zones = .ok none := by
  intro zones
  induction zones with
  | nil => intro _; rfl
  | cons z rest ih =>
    intro hz
    have hzc := hz z (List.mem_cons_self _ _)
    have hrest := fun x hx => hz x (List.mem_cons_of_mem _ hx)
    simp only [zoneScan]
    by_cases htr : ((z.bounds.getD {}).truthy = true)
    · rw [if_pos htr]
      have hcont : ¬ ((z.bounds.getD {}).minLat.getD 0 ≤ lat ∧
          lat ≤ (z.bounds.getD {}).maxLat.getD 90 ∧
          (z.bounds.getD {}).minLng.getD (-180) ≤ lng ∧
          lng ≤ (z.bounds.getD {}).maxLng.getD 0) := by
        intro hc
        rw [zoneContains] at hzc
        simp only [htr, Bool.true_and, decide_eq_false_iff_not] at hzc
        exact hzc hc
      rw [if_neg hcont]
      exact ih hrest
    · rw [if_neg htr]
      exact ih hrest

theorem zoneScan_eq_find (lat lng : ℚ) (hour : Int) :
    ∀ zones : List MeterZone, (∀ z ∈ zones, goodZone z) →
      zoneScan lat lng hour zones =
        .ok ((zones.find? (zoneHit lat lng hour)).map zoneRule) := by
  intro zones
  induction zones with
  | nil => intro _; rfl
  | cons z rest ih =>
    intro hg
    have hgz := hg z (List.mem_cons_self _ _)
    have hrest := fun x hx => hg x (List.mem_cons_of_mem _ hx)
    obtain ⟨hs, he⟩ := hgz
    obtain ⟨sh, hsh⟩ := Option.isSome_iff_exists.mp hs
    obtain ⟨eh, heh⟩ := Option.isSome_iff_exists.mp he
    simp only [zoneScan]
    by_cases htr : ((z.bounds.getD {}).truthy = true)
    · rw [if_pos htr]
      by_cases hcont : ((z.bounds.getD {}).minLat.getD 0 ≤ lat ∧
          lat ≤ (z.bounds.getD {}).maxLat.getD 90 ∧
          (z.bounds.getD {}).minLng.getD (-180) ≤ lng ∧
          lng ≤ (z.bounds.getD {}).maxLng.getD 0)
      · rw [if_pos hcont]
        simp only [hsh, heh]
        by_cases hw : (sh ≤ hour ∧ hour < eh)
        · rw [if_pos hw]
          have hhit : zoneHit lat lng hour z = true := by
            simp [zoneHit, zoneContains, htr, hcont, hsh, heh, hw]
          rw [List.find?_cons_of_pos _ hhit]
          rfl
        · rw [if_neg hw]
          have hhit : ¬ (zoneHit lat lng hour z = true) := by
            simp [zoneHit, zoneContains, htr, hcont, hsh, heh, hw]
          rw [List.find?_cons_of_neg _ hhit]
          exact ih hrest
      · have hhit : ¬ (zoneHit lat lng hour z = true) := by
          simp only [zoneHit, zoneContains, Bool.and_eq_true, decide_eq_true_eq]
          rintro ⟨⟨-, hc⟩, -⟩
          exact hcont hc
        rw [if_neg hcont, List.find?_cons_of_neg _ hhit]
        exact ih hrest
    · have hhit : ¬ (zoneHit lat lng hour z = true) := by
        simp only [zoneHit, zoneContains, Bool.and_eq_true]
        rintro ⟨⟨ht, -⟩, -⟩
        exact htr ht
      rw [if_neg htr, List.find?_cons_of_neg _ hhit]
      exact ih hrest

theorem zoneScan_rule_type (lat lng : ℚ) (hour : Int) :
    ∀ (zones : List MeterZone) (r : RuleDict),
      zoneScan lat lng hour zones = .ok (some r) → r.type = "meter" := by
  intro zones
  induction zones with
  | nil => intro r h; cases h
  | cons z rest ih =>
    intro r h
    simp only [zoneScan] at h
    by_cases htr : ((z.bounds.getD {}).truthy = true)
    · rw [if_pos htr] at h
      by_cases hcont : ((z.bounds.getD {}).minLat.getD 0 ≤ lat ∧
          lat ≤ (z.bounds.getD {}).maxLat.getD 90 ∧
          (z.bounds.getD {}).minLng.getD (-180) ≤ lng ∧
          lng ≤ (z.bounds.getD {}).maxLng.getD 0)
      · rw [if_pos hcont] at h
        cases hsh : parse_hour_head (z.startTime.getD "07:00") with
        | none => simp only [hsh] at h; cases h
        | some sh =>
          cases heh : parse_hour_head (z.endTime.getD "19:00") with
          | none => simp only [hsh, heh] at h; cases h
          | some eh =>
            simp only [hsh, heh] at h
            by_cases hw : (sh ≤ hour ∧ hour < eh)
            · rw [if_pos hw] at h
              simp only [Except.ok.injEq, Option.some.injEq] at h
              rw [← h]
            · rw [if_neg hw] at h
              exact ih r h
      · rw [if_neg hcont] at h
        exact ih r h
    · rw [if_neg htr] at h
      exact ih r h

theorem check_meter_zone_rule_type (mz : MeterData) (lat lng : ℚ) (hour dow : Int)
    (r : RuleDict) (h : check_meter_zone mz lat lng hour dow = .ok (some r)) :
    r.type = "meter" := by
  rw [check_meter_zone] at h
  by_cases h6 : dow = 6
  · rw [if_pos h6] at h; cases h
  · rw [if_neg h6] at h
    cases hzs : zoneScan lat lng hour mz.zones with
    | error u => simp only [hzs] at h; cases h
    | ok o =>
      cases o with
      | some r0 =>
        simp only [hzs, Except.ok.injEq, Option.some.injEq] at h
        rw [← h]
        exact zoneScan_rule_type lat lng hour mz.zones r0 hzs
      | none =>
        simp only [hzs] at h
        cases hds : parse_hour_head ((mz.dflt.getD {}).startTime.getD "07:00") with
        | none => simp only [hds] at h; cases h
        | some ds =>
          cases hde : parse_hour_head ((mz.dflt.getD {}).endTime.getD "19:00") with
          | none => simp only [hds, hde] at h; cases h
          | some de =>
            simp only [hds, hde] at h
            by_cases hw : (ds ≤ hour ∧ hour < de)
            · rw [if_pos hw] at h
              simp only [Except.ok.injEq, Option.some.injEq] at h
              rw [← h]
            · rw [if_neg hw] at h; cases h

theorem check_meter_zone_eq (mz : MeterData) (lat lng : ℚ) (hour day_of_week : Int)
    (hz : ∀ z ∈ mz.zones, goodZone z) (ds de : Int)
    (hds : parse_hour_head ((mz.dflt.getD {}).startTime.getD "07:00") = some ds)
    (hde : parse_hour_head ((mz.dflt.getD {}).endTime.getD "19:00") = some de) :
    check_meter_zone mz lat lng hour day_of_week =
      .ok (if day_of_week = 6 then none
           else
             match mz.zones.find? (zoneHit lat lng hour) with
             | some z => some (zoneRule z)
             | none =>
               if ds ≤ hour ∧ hour < de then
                 some (defaultMeterRule (mz.dflt.getD {}) lat ds de)
               else none) := by
  by_cases h6 : day_of_week = 6
  · rw [check_meter_zone, if_pos h6, if_pos h6]
  · rw [check_meter_zone, if_neg h6, if_neg h6,
        zoneScan_eq_find lat lng hour mz.zones hz]
    cases hf : mz.zones.find? (zoneHit lat lng hour) with
    | some z => simp only [hf, Option.map]
    | none =>
      simp only [hf, Option.map, hds, hde]
      by_cases hw : (ds ≤ hour ∧ hour < de)
      · rw [if_pos hw, if_pos hw]
        rfl
      · rw [if_neg hw, if_neg hw]

theorem determine_status_ok (rules : List RuleDict) (now : PyDateTime) (cd : ℚ)
    (hg : ∀ r ∈ rules, GoodRule r) :
    ∃ res, determine_status rules now cd = .ok res := by
  by_cases hemp : rules.isEmpty = true
  · exact ⟨_, by rw [determine_status, if_pos hemp]⟩
  · rw [determine_status, if_neg hemp]
    cases hp : rules.find? isProhibition with
    | some p => exact ⟨_, rfl⟩
    | none =>
      rw [cleaningScan_eq_find now cd rules hg]
      cases hdec : rules.find? (cleaningDecisive cd) with
      | some r =>
        have hty : r.type = "street_cleaning" := by
          have hd := List.find?_some hdec
          simp only [cleaningDecisive, Bool.and_eq_true, decide_eq_true_eq] at hd
          exact hd.1
        obtain ⟨res, hres⟩ :=
          cleaningVerdict_ok now cd r hty (hg r (List.mem_of_find?_eq_some hdec))
        exact ⟨res, by simp only [hres, Except.map]⟩
      | none =>
        cases hm : rules.find? (fun r => decide (r.type = "meter")) with
        | some m => exact ⟨_, rfl⟩
        | none =>
          obtain ⟨o, ho⟩ := laterScan_ok now cd rules hg
          rw [ho]
          cases o with
          | some res => exact ⟨res, rfl⟩
          | none => exact ⟨_, rfl⟩

instance (cat : Catalogue) : Decidable (WFCatalogue cat) := by
  unfold WFCatalogue; infer_instance

theorem engine_rules_good (cat : Catalogue) (lat lng : ℚ) (now : PyDateTime)
    (mo : Option RuleDict)
    (hclean : ∀ p ∈ cat.cleaning.boroughs, ∀ e ∈ p.2, goodCleaningEntry e)
    (hmo : check_meter_zone cat.meters lat lng now.hour now.weekday = .ok mo) :
    ∀ r ∈ ((if is_holiday cat.holidays now = true then []
        else get_street_cleaning_rules cat.cleaning lat lng now.weekday
          (get_borough lat lng)) ++
        mo.toList ++ check_special_restrictions lat lng now.weekday now.hour),
      GoodRule r := by
  intro r hr
  rcases List.mem_append.mp hr with hr | hr
  · rcases List.mem_append.mp hr with hr | hr
    · by_cases hol : is_holiday cat.holidays now = true
      · rw [if_pos hol] at hr; cases hr
      · rw [if_neg hol] at hr
        exact cleaning_rules_good cat.cleaning lat lng now.weekday
          (get_borough lat lng) hclean r hr
    · cases mo with
      | none => cases hr
      | some m =>
        rcases List.mem_singleton.mp hr with rfl
        have hty := check_meter_zone_rule_type cat.meters lat lng now.hour
          now.weekday r hmo
        intro hcl
        rw [hcl] at hty
        exact absurd hty (by decide)
  · simp [check_special_restrictions] at hr

theorem get_parking_status_ok (cat : Catalogue) (lat lng : ℚ) (now : PyDateTime)
    (hwf : WFCatalogue cat) :
    ∃ res, get_parking_status cat lat lng now = .ok res := by
  obtain ⟨hclean, hzones, hdflt⟩ := hwf
  obtain ⟨hs, he⟩ := hdflt
  obtain ⟨ds, hds⟩ := Option.isSome_iff_exists.mp hs
  obtain ⟨de, hde⟩ := Option.isSome_iff_exists.mp he
  have hcm : ∃ mo, check_meter_zone cat.meters lat lng now.hour now.weekday = .ok mo :=
    ⟨_, check_meter_zone_eq cat.meters lat lng now.hour now.weekday hzones ds de hds hde⟩
  obtain ⟨mo, hcm⟩ := hcm
  have hrg := engine_rules_good cat lat lng now mo hclean hcm
  obtain ⟨res, hres⟩ := determine_status_ok _ now
    (qadd (now.hour : ℚ) (qdiv (now.minute : ℚ) 60)) hrg
  simp only [get_parking_status, hcm, hres]
  exact ⟨_, rfl⟩

/-- C1: for every matched rule list containing a `no_parking`/`no_standing`
rule, the status evaluator returns red, parking type = the (first) such
rule's kind, and a null expiry, regardless of any co-matched meter or
street-cleaning rules in the list. -/
theorem c1_prohibition_dominates (rules : List RuleDict) (now : PyDateTime)
    (current_decimal : ℚ) (p : RuleDict)
    (hp : rules.find? isProhibition = some p) :
    determine_status rules now current_decimal =
      .ok ("red", "No " ++ pyReplaceUnderscore p.type ++ " zone", p.type, none) :=
  determine_status_of_prohibition rules now current_decimal p hp

/-- C1 witness: a no-standing rule co-matched with a currently active
cleaning rule and a meter rule still yields red/no_standing with no
expiry. -/
theorem c1_witness :
    determine_status [mkCleaning "09:00" "10:30", meterFixture, noStandingFixture]
        (monday 9 45) (mkRat 39 4) =
      .ok ("red", "No no standing zone", "no_standing", none) :=
  c1_prohibition_dominates _ _ _ noStandingFixture (by decide)

/-- C2 counterexample: the list holds no prohibition rule and its second
street-cleaning rule (09:00-10:30) is active at 09:45, yet the evaluator
returns yellow for the first rule (10:00-11:00, starting in 15 minutes)
because the scan decides on the first rule in list order. -/
theorem c2_counterexample :
    (∀ r ∈ [mkCleaning "10:00" "11:00", mkCleaning "09:00" "10:30"],
        isProhibition r = false) ∧
    parse_time (mkCleaning "09:00" "10:30").startTime ≤ mkRat 39 4 ∧
    mkRat 39 4 < parse_time (mkCleaning "09:00" "10:30").endTime ∧
    determine_status [mkCleaning "10:00" "11:00", mkCleaning "09:00" "10:30"]
        (monday 9 45) (mkRat 39 4) =
      .ok ("yellow", "Street cleaning in 15 min - move your car!",
           "street_cleaning", some (monday 10 0)) := by decide

/-- C2 (amended): with no prohibition rule, if the first street-cleaning
rule that is active or starts within the 60-minute warning band is one
whose window contains the current time, the evaluator returns red with
expiry = that window's end on the query's calendar date (rule times
parsing to legal hours). -/
theorem c2_amended_active_cleaning_red (rules : List RuleDict) (now : PyDateTime)
    (current_decimal : ℚ) (r : RuleDict) (e : PyDateTime)
    (hg : ∀ x ∈ rules, GoodRule x)
    (hnp : rules.find? isProhibition = none)
    (hfind : rules.find? (cleaningDecisive current_decimal) = some r)
    (hact : parse_time r.startTime ≤ current_decimal ∧
            current_decimal < parse_time r.endTime)
    (he : time_to_datetime (parse_time r.endTime) now = .ok e) :
    determine_status rules now current_decimal =
      .ok ("red", "Street cleaning until " ++ r.endTime, "street_cleaning", some e) := by
  rw [determine_status_of_cleaning rules now current_decimal r hg hnp hfind]
  simp only [cleaningVerdict]
  rw [if_pos hact]
  simp only [he, Except.map]

/-- C2 (amended) witness. -/
theorem c2_amended_witness :
    determine_status [mkCleaning "09:00" "10:30"] (monday 9 45) (mkRat 39 4) =
      .ok ("red", "Street cleaning until 10:30", "street_cleaning",
           some (monday 10 30)) :=
  c2_amended_active_cleaning_red _ _ _ (mkCleaning "09:00" "10:30") (monday 10 30)
    (by decide) (by decide) (by decide) (by decide) (by decide)

/-- C3 counterexample: the second rule (09:30-10:30) is active at 09:45,
but the evaluator answers for the first rule in list order (10:15-11:00,
30 minutes away) with yellow - the active rule is not preferred. -/
theorem c3_counterexample :
    cleaningActive (mkRat 39 4) (mkCleaning "09:30" "10:30") = true ∧
    determine_status [mkCleaning "10:15" "11:00", mkCleaning "09:30" "10:30"]
        (monday 9 45) (mkRat 39 4) =
      .ok ("yellow", "Street cleaning in 30 min - move your car!",
           "street_cleaning", some (monday 10 15)) := by decide

/-- C3 (amended): with no prohibition rule, the evaluator's street-cleaning
phase acts on the first rule in list order that is active or starts within
the 60-minute band, and returns that single rule's verdict (red if active,
yellow with the truncated minute count otherwise); list order, not
activity, breaks conflicts. -/
theorem c3_amended_first_decisive (rules : List RuleDict) (now : PyDateTime)
    (current_decimal : ℚ) (r : RuleDict)
    (hg : ∀ x ∈ rules, GoodRule x)
    (hnp : rules.find? isProhibition = none)
    (hfind : rules.find? (cleaningDecisive current_decimal) = some r) :
    determine_status rules now current_decimal =
      cleaningVerdict now current_decimal r :=
  determine_status_of_cleaning rules now current_decimal r hg hnp hfind

/-- C3 (amended) witness: the first rule is outside the band (75 minutes
away), so the verdict is the second rule's. -/
theorem c3_amended_witness :
    determine_status [mkCleaning "11:00" "12:30", mkCleaning "10:15" "11:00"]
        (monday 9 45) (mkRat 39 4) =
      cleaningVerdict (monday 9 45) (mkRat 39 4) (mkCleaning "10:15" "11:00") :=
  c3_amended_first_decisive _ _ _ _ (by decide) (by decide) (by decide)

/-- C4 counterexample: a meter rule whose max duration is 0 minutes yields
a null expiry, where the claim as stated demands now + 0 minutes. -/
theorem c4_counterexample :
    meterZeroCap.maxDuration = some 0 ∧
    determine_status [meterZeroCap] (monday 12 0) 12 =
      .ok ("yellow", "Metered zone - $3.50/hr (max 0 min)", "meter", none) := by decide

/-- C4 (amended): with no prohibition rule and no street-cleaning rule
active or starting within 60 minutes, a matched meter rule yields yellow,
type meter, expiry = now + max duration when the cap is nonzero, and a
null expiry when the cap is null or zero. -/
theorem c4_amended_meter_yellow (rules : List RuleDict) (now : PyDateTime)
    (current_decimal : ℚ) (m : RuleDict)
    (hg : ∀ x ∈ rules, GoodRule x)
    (hnp : rules.find? isProhibition = none)
    (hnc : rules.find? (cleaningDecisive current_decimal) = none)
    (hm : rules.find? (fun r => decide (r.type = "meter")) = some m) :
    determine_status rules now current_decimal = .ok (meterResult now m) ∧
    (meterResult now m).1 = "yellow" ∧ (meterResult now m).2.2.1 = "meter" ∧
    (∀ d : Int, m.maxDuration = some d → d ≠ 0 →
      (meterResult now m).2.2.2 = some (now.addMinutes d)) ∧
    ((m.maxDuration = none ∨ m.maxDuration = some 0) →
      (meterResult now m).2.2.2 = none) := by
  refine ⟨determine_status_of_meter rules now current_decimal m hg hnp hnc hm,
    rfl, rfl, ?_, ?_⟩
  · intro d hd hd0
    simp [meterResult, hd, hd0]
  · rintro (hd | hd) <;> simp [meterResult, hd]

/-- C4 (amended) witness: a 120-minute meter rule at Monday noon expires at
14:00; the co-matched cleaning rule starts 90 minutes later and does not
interfere. -/
theorem c4_amended_witness :
    determine_status [mkCleaning "13:30" "15:00", meterFixture] (monday 12 0) 12 =
      .ok (meterResult (monday 12 0) meterFixture) :=
  (c4_amended_meter_yellow _ _ _ meterFixture
    (by decide) (by decide) (by decide) (by decide)).1

/-- C5 (supporting computation): at now = 00:03 with a cleaning window
starting 00:04, the intended countdown is exactly 1 minute, which this
exact-rational model produces.  The deployed code computes the countdown
as `int((start - now) * 60)` on IEEE-754 doubles, where `(4/60 - (0 +
3/60)) * 60` evaluates below 1 and truncates to 0, so it displays
"Street cleaning in 0 min" - off by one from the claim's exact count. -/
theorem c5_exact_minutes_model :
    determine_status [mkCleaning "00:04" "01:30"] (monday 0 3) (mkRat 1 20) =
      .ok ("yellow", "Street cleaning in 1 min - move your car!",
           "street_cleaning", some (monday 0 4)) := by decide

/-- C6: on a date flagged as a holiday with alternate-side suspension, the
matched rule list contains no street-cleaning rule and equals exactly the
result of the meter-zone check, a function that takes no holiday input
(so meter and prohibition matching are unaffected by the flag). -/
theorem c6_holiday_suspension (cat : Catalogue) (lat lng : ℚ) (now : PyDateTime)
    (res : ParkingStatusResult)
    (hhol : is_holiday cat.holidays now = true)
    (hres : get_parking_status cat lat lng now = .ok res) :
    (∀ r ∈ res.rules, r.type ≠ "street_cleaning") ∧
    ∃ mo, check_meter_zone cat.meters lat lng now.hour now.weekday = .ok mo ∧
      res.rules = mo.toList := by
  cases hcm : check_meter_zone cat.meters lat lng now.hour now.weekday with
  | error u =>
    rw [get_parking_status] at hres
    rw [hcm] at hres
    cases hres
  | ok mo =>
    simp only [get_parking_status, hcm, hhol, if_true, check_special_restrictions,
      List.nil_append, List.append_nil] at hres
    cases hd : determine_status mo.toList now
        (qadd ((now.hour : Int) : ℚ) (qdiv ((now.minute : Int) : ℚ) 60)) with
    | error u => rw [hd] at hres; cases hres
    | ok t =>
      rw [hd] at hres
      simp only [Except.ok.injEq] at hres
      have hrules : res.rules = mo.toList := by rw [← hres]
      refine ⟨?_, mo, rfl, hrules⟩
      intro r hr
      rw [hrules] at hr
      cases mo with
      | none => cases hr
      | some m =>
        rcases List.mem_singleton.mp hr with rfl
        have hty := check_meter_zone_rule_type cat.meters lat lng now.hour
          now.weekday r hcm
        rw [hty]
        decide

/-- C6 witness: a suspended holiday on the query date with an otherwise
matching Monday, at 05:00 (outside meter hours), yields an empty matched
rule set. -/
theorem c6_witness :
    (∀ r ∈ ([] : List RuleDict), r.type ≠ "street_cleaning") ∧
    ∃ mo, check_meter_zone catHolidayOnly.meters (mkRat 4075 100) (mkRat (-7399) 100)
        (monday 5 0).hour (monday 5 0).weekday = .ok mo ∧
      ([] : List RuleDict) = mo.toList :=
  c6_holiday_suspension catHolidayOnly (mkRat 4075 100) (mkRat (-7399) 100) (monday 5 0)
    { status := "green", reason := "Free parking - no restrictions",
      parking_type := "free", rules := [], expires_at := none,
      address := some "40.7500, -73.9900", zone_code := none,
      borough := some "Manhattan",
      recommendations := ["Alternate side parking suspended (Test Day)"] }
    (by decide) (by decide)

/-- C7 counterexample: on Saturday (day 5) a zone restricted on paper to
Mondays (`days = [0]`) still matches when the point is in bounds and the
hour is in window - the day set is never consulted. -/
theorem c7_counterexample :
    zoneMondayOnly.days = some [0] ∧
    check_meter_zone metersMondayOnly (mkRat 405 10) (mkRat (-738) 10) 10 5 =
      .ok (some (zoneRule zoneMondayOnly)) ∧
    (5 : Int) ∉ (zoneRule zoneMondayOnly).days := by decide

/-- C7 (amended): on Sunday no meter rule is ever matched; on other days
the check selects the first configured zone whose truthy bounds contain
the point and whose leading-hour window contains the hour - the zone's day
set is not consulted - and when no configured zone matches it fabricates a
default rule during the default window. -/
theorem c7_amended_meter_matching (mz : MeterData) (lat lng : ℚ)
    (hour day_of_week : Int)
    (hz : ∀ z ∈ mz.zones, goodZone z) (ds de : Int)
    (hds : parse_hour_head ((mz.dflt.getD {}).startTime.getD "07:00") = some ds)
    (hde : parse_hour_head ((mz.dflt.getD {}).endTime.getD "19:00") = some de) :
    check_meter_zone mz lat lng hour day_of_week =
      .ok (if day_of_week = 6 then none
           else
             match mz.zones.find? (zoneHit lat lng hour) with
             | some z => some (zoneRule z)
             | none =>
               if ds ≤ hour ∧ hour < de then
                 some (defaultMeterRule (mz.dflt.getD {}) lat ds de)
               else none) :=
  check_meter_zone_eq mz lat lng hour day_of_week hz ds de hds hde

/-- C7 (amended) witness: the same in-bounds point on Sunday matches no
meter rule. -/
theorem c7_amended_witness :
    check_meter_zone metersMondayOnly (mkRat 405 10) (mkRat (-738) 10) 10 6 =
      .ok none := by
  have h := c7_amended_meter_matching metersMondayOnly (mkRat 405 10) (mkRat (-738) 10)
    10 6 (by decide) 7 19 (by decide) (by decide)
  simpa using h

/-- C8 counterexample: with a fully empty catalogue a Monday 09:00 query is
red (the built-in default Manhattan cleaning window 08:30-10:00 is
active), not the claimed default/free status. -/
theorem c8_counterexample :
    (get_parking_status {} (mkRat 4075 100) (mkRat (-7399) 100) (monday 9 0)).map
        (fun res => (res.status, res.parking_type, res.reason)) =
      .ok ("red", "street_cleaning", "Street cleaning until 10:00") := by decide

/-- C8 (amended): a missing data file degrades that category to an empty
catalogue, but an empty catalogue does not yield the free status for every
query: built-in defaults apply (Manhattan cleaning Mon-Thu, default meter
07:00-19:00 Mon-Sat).  Outside every default window - e.g. any time on a
Sunday - the result is the canonical green/free with no expiry and no
matched rules. -/
theorem c8_amended_empty_catalogue (lat lng : ℚ) (now : PyDateTime)
    (hday : now.weekday = 6) :
    ∃ res, get_parking_status {} lat lng now = .ok res ∧
      res.status = "green" ∧ res.parking_type = "free" ∧
      res.expires_at = none ∧ res.rules = [] := by
  have hcm : check_meter_zone ({} : Catalogue).meters lat lng now.hour now.weekday =
      .ok none := by
    rw [check_meter_zone, if_pos hday]
  have hclean : get_street_cleaning_rules ({} : Catalogue).cleaning lat lng now.weekday
      (get_borough lat lng) = [] := by
    simp [get_street_cleaning_rules, default_schedules, hday]
  refine ⟨{ status := "green", reason := "Free parking - no restrictions",
            parking_type := "free", rules := [], expires_at := none,
            address := some (formatFixed 4 lat ++ ", " ++ formatFixed 4 lng),
            zone_code := none, borough := some (get_borough lat lng),
            recommendations := [] }, ?_, rfl, rfl, rfl, rfl⟩
  simp only [get_parking_status, hcm, hclean]
  rfl

/-- C8 (amended) witness. -/
theorem c8_amended_witness :
    ∃ res, get_parking_status {} (mkRat 4075 100) (mkRat (-7399) 100)
        (sunday 12 0) = .ok res ∧
      res.status = "green" ∧ res.parking_type = "free" ∧
      res.expires_at = none ∧ res.rules = [] :=
  c8_amended_empty_catalogue _ _ _ (by decide)

/-- C9 counterexample: a cleaning catalogue entry with end time "25:00"
makes the engine raise (the `datetime.replace` ValueError for hour 25)
during an active Monday 01:00 query, instead of returning a StatusResult. -/
theorem c9_counterexample :
    get_parking_status catBadEndHour (mkRat 4075 100) (mkRat (-7399) 100)
      (monday 1 0) = .error () := by decide

/-- C9 (amended): for well-formed catalogues - numeric leading hours in
every meter time string and cleaning windows whose times parse to legal
hours - the engine returns a StatusResult for every coordinate pair and
clock reading; out-of-range or non-numeric time strings can instead raise
and propagate. -/
theorem c9_amended_total_on_wellformed (cat : Catalogue) (lat lng : ℚ)
    (now : PyDateTime) (hwf : WFCatalogue cat) :
    ∃ res, get_parking_status cat lat lng now = .ok res :=
  get_parking_status_ok cat lat lng now hwf

/-- C9 (amended) witness. -/
theorem c9_amended_witness :
    ∃ res, get_parking_status catHolidayOnly (mkRat 4075 100) (mkRat (-7399) 100)
      (monday 9 0) = .ok res :=
  c9_amended_total_on_wellformed _ _ _ _ (by decide)

/-- C10: on a day other than Sunday, with the hour inside the default
meter window and the point inside no configured zone's bounding box, the
meter check fabricates and matches a default meter rule carrying the
default rate and duration cap and a zone code derived from the latitude;
the matched rule set is therefore non-empty and the result is never
(green, free, null expiry). -/
theorem c10_default_meter_fabricated (cat : Catalogue) (lat lng : ℚ)
    (now : PyDateTime) (res : ParkingStatusResult) (ds de : Int)
    (hdow : now.weekday ≠ 6)
    (hnozone : ∀ z ∈ cat.meters.zones, zoneContains lat lng z = false)
    (hds : parse_hour_head ((cat.meters.dflt.getD {}).startTime.getD "07:00") = some ds)
    (hde : parse_hour_head ((cat.meters.dflt.getD {}).endTime.getD "19:00") = some de)
    (hhr : ds ≤ now.hour ∧ now.hour < de)
    (hres : get_parking_status cat lat lng now = .ok res) :
    defaultMeterRule (cat.meters.dflt.getD {}) lat ds de ∈ res.rules ∧
    (defaultMeterRule (cat.meters.dflt.getD {}) lat ds de).type = "meter" ∧
    (defaultMeterRule (cat.meters.dflt.getD {}) lat ds de).rate =
      some ((cat.meters.dflt.getD {}).rate.getD (mkRat 7 2)) ∧
    (defaultMeterRule (cat.meters.dflt.getD {}) lat ds de).maxDuration =
      some ((cat.meters.dflt.getD {}).maxDuration.getD 120) ∧
    (defaultMeterRule (cat.meters.dflt.getD {}) lat ds de).zoneCode =
      some (zoneCodeOf lat) ∧
    ¬ (res.status = "green" ∧ res.parking_type = "free" ∧ res.expires_at = none) := by
  have hcm : check_meter_zone cat.meters lat lng now.hour now.weekday =
      .ok (some (defaultMeterRule (cat.meters.dflt.getD {}) lat ds de)) := by
    rw [check_meter_zone, if_neg hdow,
      zoneScan_skip lat lng now.hour cat.meters.zones hnozone]
    simp only [hds, hde]
    rw [if_pos hhr]
    rfl
  simp only [get_parking_status, hcm] at hres
  cases hd : determine_status
      ((if is_holiday cat.holidays now = true then []
        else get_street_cleaning_rules cat.cleaning lat lng now.weekday
          (get_borough lat lng)) ++
        [defaultMeterRule (cat.meters.dflt.getD {}) lat ds de] ++
        check_special_restrictions lat lng now.weekday now.hour) now
      (qadd ((now.hour : Int) : ℚ) (qdiv ((now.minute : Int) : ℚ) 60)) with
  | error u =>
    rw [Option.toList] at hres
    rw [hd] at hres
    cases hres
  | ok t =>
    rw [Option.toList] at hres
    rw [hd] at hres
    simp only [Except.ok.injEq] at hres
    have hmem : defaultMeterRule (cat.meters.dflt.getD {}) lat ds de ∈
        (if is_holiday cat.holidays now = true then []
         else get_street_cleaning_rules cat.cleaning lat lng now.weekday
           (get_borough lat lng)) ++
          [defaultMeterRule (cat.meters.dflt.getD {}) lat ds de] ++
          check_special_restrictions lat lng now.weekday now.hour := by
      refine List.mem_append.mpr (Or.inl ?_)
      exact List.mem_append.mpr (Or.inr (List.mem_cons_self _ _))
    have hng := meter_present_not_green _ now _
      (defaultMeterRule (cat.meters.dflt.getD {}) lat ds de) t hmem rfl hd
    refine ⟨?_, rfl, rfl, rfl, rfl, ?_⟩
    · rw [← hres]
      exact hmem
    · rw [← hres]
      exact hng

/-- C10 witness: latitude 42 lies outside the only configured zone, so at
Monday 10:00 the default rule (code "2000" from the latitude) is matched
alongside the fallback cleaning rule. -/
theorem c10_witness :
    defaultMeterRule (catZoneOnly.meters.dflt.getD {}) 42 7 19 ∈
      [{ id := "cleaning-default-0", type := "street_cleaning",
         description := "Alternate side parking - North/East side",
         startTime := "08:30", endTime := "10:00", days := [0],
         side := some "North/East", maxDuration := none, rate := none,
         zoneCode := none : RuleDict },
       defaultMeterRule (catZoneOnly.meters.dflt.getD {}) 42 7 19] :=
  (c10_default_meter_fabricated catZoneOnly 42 (mkRat (-7399) 100) (monday 10 0)
    { status := "yellow", reason := "Metered zone - $3.50/hr (max 120 min)",
      parking_type := "meter",
      rules := [{ id := "cleaning-default-0", type := "street_cleaning",
                  description := "Alternate side parking - North/East side",
                  startTime := "08:30", endTime := "10:00", days := [0],
                  side := some "North/East", maxDuration := none, rate := none,
                  zoneCode := none },
                defaultMeterRule (catZoneOnly.meters.dflt.getD {}) 42 7 19],
      expires_at := some (monday 12 0), address := some "42.0000, -73.9900",
      zone_code := some "2000", borough := some "Bronx",
      recommendations := ["Pay with ParkMobile or at the meter",
                          "Set a reminder before time expires",
                          "Maximum parking time: 120 minutes"] }
    7 19 (by decide) (by decide) (by decide) (by decide) (by decide) (by decide)).1
